import Mathlib

/-!
Verification of the inkora-reader content API.

This file gives a shallow embedding of the parts of the code base that the
checked properties talk about:

* the unified fallback orchestrator and its response validators
  (src/routes/manhwa/manhuaplus.ts, unified provider module),
* the anti-block transport retry loop (utils/proxy.ts, fetchWithRetry),
* the headless render service (services/BrowserService.ts, scrapeDynamic),
* the in-memory TTL caches (mangaupdates muCache, mgeko genreCache),
* chapter collection of the mgeko and mangadex adapters,
* the stream relay playlist rewrite (src/routes/proxy.ts).

External I/O (HTTP requests, the browser, cheerio parsing of fetched HTML)
is modelled by explicit environment parameters; everything that the
JavaScript code computes itself is translated directly.
-/

/- ===== generic string helpers modelling JavaScript builtins ===== -/

/-- Occurrence of the pattern list anywhere inside the list
(JavaScript String.prototype.includes at the character level). -/
def subOcc (pat : List Char) : List Char → Bool
  | [] => pat.isEmpty
  | c :: rest => pat.isPrefixOf (c :: rest) || subOcc pat rest

/-- JavaScript str.includes(pat). -/
def strContains (s pat : String) : Bool :=
  subOcc pat.toList s.toList

/-- Replace the first occurrence of the pattern (JavaScript
String.prototype.replace with a plain-string pattern). -/
def replaceFirstL (pat rep : List Char) : List Char → List Char
  | [] => []
  | c :: rest =>
    if pat.isPrefixOf (c :: rest) then rep ++ (c :: rest).drop pat.length
    else c :: replaceFirstL pat rep rest

/-- Replace the first occurrence of a plain-string pattern. -/
def replaceFirstStr (s pat rep : String) : String :=
  String.mk (replaceFirstL pat.toList rep.toList s.toList)

/-- JavaScript s.replace(a regular expression matching one trailing slash, empty). -/
def dropTrailingSlash (s : String) : String :=
  String.mk (match s.toList.reverse with
    | '/' :: rest => rest.reverse
    | _ => s.toList)

/-- Whitespace for the purposes of JavaScript String.prototype.trim. -/
def isJsSpace (c : Char) : Bool :=
  c = ' ' || c = Char.ofNat 9 || c = Char.ofNat 10 || c = Char.ofNat 13 ||
  c = Char.ofNat 11 || c = Char.ofNat 12

/-- JavaScript String.prototype.trim: whitespace stripped from both ends. -/
def jsTrim (s : String) : String :=
  String.mk (((s.toList.dropWhile isJsSpace).reverse.dropWhile isJsSpace).reverse)

/-- JavaScript str.startsWith(pat). -/
def strStartsWith (s pat : String) : Bool :=
  pat.toList.isPrefixOf s.toList

/-- Characters that encodeURIComponent leaves unescaped:
letters, digits, and - _ . ! ~ * apostrophe ( ). -/
def isUnreservedChar (c : Char) : Bool :=
  c.isAlpha || c.isDigit || c = '-' || c = '_' || c = '.' || c = '!' ||
  c = '~' || c = '*' || c = Char.ofNat 39 || c = '(' || c = ')'

/-- Upper-case hexadecimal digit. -/
def hexDigitChar (n : Nat) : Char :=
  if n < 10 then Char.ofNat (48 + n) else Char.ofNat (55 + n)

/-- UTF-8 bytes of a single character. -/
def utf8Bytes (c : Char) : List Nat :=
  let n := c.toNat
  if n < 128 then [n]
  else if n < 2048 then [192 + n / 64, 128 + n % 64]
  else if n < 65536 then [224 + n / 4096, 128 + (n / 64) % 64, 128 + n % 64]
  else [240 + n / 262144, 128 + (n / 4096) % 64, 128 + (n / 64) % 64, 128 + n % 64]

/-- Percent-encoding of one byte, upper-case hex. -/
def percentByte (b : Nat) : String :=
  String.mk ['%', hexDigitChar (b / 16), hexDigitChar (b % 16)]

/-- JavaScript encodeURIComponent: unreserved characters kept verbatim,
every other character written as the percent-encoding of its UTF-8 bytes. -/
def encodeURIComponent (s : String) : String :=
  String.join (s.toList.map fun c =>
    if isUnreservedChar c then String.mk [c]
    else String.join ((utf8Bytes c).map percentByte))

/-- Value of a list of decimal digit characters. -/
def digitsToNat (ds : List Char) : Nat :=
  ds.foldl (fun a c => a * 10 + (c.toNat - 48)) 0

/-- Value of a list of hexadecimal digit characters. -/
def hexDigitsToNat (ds : List Char) : Nat :=
  ds.foldl (fun a c =>
    a * 16 + (if c.isDigit then c.toNat - 48
              else if c.toNat ≥ 97 then c.toNat - 87 else c.toNat - 55)) 0

/-- Hexadecimal digit test. -/
def isHexDigit (c : Char) : Bool :=
  c.isDigit || (97 ≤ c.toNat && c.toNat ≤ 102) || (65 ≤ c.toNat && c.toNat ≤ 70)

/-- Digits-or-hex prefix parse used by parseIntJS. -/
def parseUnsignedJS : List Char → Option Nat
  | '0' :: 'x' :: rest =>
    let ds := rest.takeWhile isHexDigit
    if ds.isEmpty then none else some (hexDigitsToNat ds)
  | '0' :: 'X' :: rest =>
    let ds := rest.takeWhile isHexDigit
    if ds.isEmpty then none else some (hexDigitsToNat ds)
  | cs =>
    let ds := cs.takeWhile Char.isDigit
    if ds.isEmpty then none else some (digitsToNat ds)

/-- JavaScript parseInt(s) with radix auto-detection; none models NaN. -/
def parseIntJS (s : String) : Option Int :=
  let cs := s.toList.dropWhile fun c =>
    c = ' ' || c = Char.ofNat 9 || c = Char.ofNat 10 || c = Char.ofNat 13
  match cs with
  | '-' :: rest => (parseUnsignedJS rest).map (fun n => -(n : Int))
  | '+' :: rest => (parseUnsignedJS rest).map (fun n => (n : Int))
  | _ => (parseUnsignedJS cs).map (fun n => (n : Int))

/- ===== unified fallback orchestrator (manhuaplus.ts unified module) ===== -/

/-- ProviderConfig from the unified provider module. -/
structure ProviderConfig where
  name : String
  baseUrl : String
  priority : Nat
deriving Repr, DecidableEq

/-- PROVIDERS list, fixed at module load. -/
def PROVIDERS : List ProviderConfig :=
  [{ name := "manhuaplus", baseUrl := "/manhwa/manhuaplus", priority := 1 },
   { name := "manhuaus", baseUrl := "/manhwa/manhuaus", priority := 2 }]

/-- Chapter entry of an info payload (fields irrelevant to validation kept
as plain strings). -/
structure ChapterRef where
  id : String
  title : String
  releaseDate : Option String
deriving Repr, DecidableEq

/-- Validator-relevant shape of an info JSON payload. A missing or
non-string title is none; a missing or non-array chapters field is none. -/
structure InfoData where
  title : Option String
  chapters : Option (List ChapterRef)
deriving Repr, DecidableEq

/-- isValidManhwaInfo from the unified module: data must be truthy, have a
non-empty non-blank title and a non-empty chapters array. -/
def isValidManhwaInfo : Option InfoData → Bool
  | none => false
  | some d =>
    match d.title with
    | none => false
    | some t =>
      if t = "" then false
      else if jsTrim t = "" then false
      else
        match d.chapters with
        | none => false
        | some cs => if cs.length = 0 then false else true

/-- List-operation JSON payload: currentPage / hasNextPage are passed
through, results is the validated field (none models missing/non-array). -/
structure ListPayload (α : Type) where
  currentPage : Option Int
  hasNextPage : Option Bool
  results : Option (List α)
deriving Repr, DecidableEq

/-- isValidSearchResults from the unified module. -/
def isValidSearchResults {α : Type} : Option (ListPayload α) → Bool
  | none => false
  | some d =>
    match d.results with
    | none => false
    | some rs => rs.length > 0

/-- Page entry of a read payload; img none models a missing field. -/
structure PageItem where
  page : Nat
  img : Option String
deriving Repr, DecidableEq

/-- isValidChapterPages from the unified module: non-empty array with at
least one page whose img is truthy and non-blank. -/
def isValidChapterPages : Option (List PageItem) → Bool
  | none => false
  | some ps =>
    if ps.length = 0 then false
    else ps.any fun p =>
      match p.img with
      | none => false
      | some s => s ≠ "" && jsTrim s ≠ ""

/-- Result of fetchFromProvider: statusCode 200 with a parsed JSON payload,
or a failure string (non-200 status or a thrown error message). -/
inductive FetchResult (α : Type) where
  | success (data : α)
  | failure (error : String)
deriving Repr, DecidableEq

/-- Reply of the unified /info handler. Option fields model presence of
the corresponding JSON keys. -/
structure InfoReply where
  status : Nat
  data : Option InfoData
  provider : Option String
  fallback : Option Bool
  message : Option String
  errors : Option (List String)
  triedProviders : Option (List String)
deriving Repr, DecidableEq

/-- Provider loop of the unified /info handler. The environment gives the
result of fetchFromProvider for each provider name; the second component
of the result lists the providers actually fetched, in order. -/
def unifiedInfoGo (env : String → FetchResult (Option InfoData)) :
    List ProviderConfig → List String → InfoReply × List String
  | [], errors =>
    ({ status := 404, data := none, provider := none, fallback := none,
       message := some "Manhwa not found on any provider",
       errors := some errors,
       triedProviders := some (PROVIDERS.map (·.name)) }, [])
  | p :: rest, errors =>
    match env p.name with
    | .success d =>
      if isValidManhwaInfo d then
        ({ status := 200, data := d, provider := some p.name,
           fallback := some (decide (1 < p.priority)),
           message := none, errors := none, triedProviders := none },
         [p.name])
      else
        let r := unifiedInfoGo env rest
          (errors ++ [p.name ++ ": Invalid data (no chapters or title)"])
        (r.1, p.name :: r.2)
    | .failure e =>
      let r := unifiedInfoGo env rest (errors ++ [p.name ++ ": " ++ e])
      (r.1, p.name :: r.2)

/-- The unified /info handler for a non-empty id. -/
def unifiedInfo (env : String → FetchResult (Option InfoData)) :
    InfoReply × List String :=
  unifiedInfoGo env PROVIDERS []

/-- Whether a fetchFromProvider result passes the info validator. -/
def fetchPassesInfo : FetchResult (Option InfoData) → Bool
  | .success d => isValidManhwaInfo d
  | .failure _ => false

/-- The failure reason the unified /info loop records for one provider. -/
def infoFailMsg (name : String) : FetchResult (Option InfoData) → String
  | .success _ => name ++ ": Invalid data (no chapters or title)"
  | .failure e => name ++ ": " ++ e

/-- One result item of a unified list reply, tagged with its provider. -/
structure TaggedItem (α : Type) where
  item : α
  provider : String
deriving Repr, DecidableEq

/-- Reply of the unified list handlers (search, latest, advanced-search,
genre). The reply JSON of these handlers never carries failure reasons;
accordingly the type has no such field. -/
structure ListReply (α : Type) where
  status : Nat
  currentPage : Option Int
  hasNextPage : Option Bool
  results : List (TaggedItem α)
  provider : String
deriving Repr, DecidableEq

/-- Whether a fetchFromProvider result passes the search-results validator. -/
def fetchPassesList {α : Type} : FetchResult (Option (ListPayload α)) → Bool
  | .success d => isValidSearchResults d
  | .failure _ => false

/-- Successful reply of a unified list handler: the payload spread plus
provider-tagged results. -/
def listSuccessReply {α : Type} (name : String) (d : ListPayload α) :
    ListReply α :=
  { status := 200, currentPage := d.currentPage, hasNextPage := d.hasNextPage,
    results := (d.results.getD []).map (fun it => { item := it, provider := name }),
    provider := name }

/-- Fall-through reply shared by the unified list handlers. -/
def listFallThroughReply {α : Type} (pageNum : String) : ListReply α :=
  { status := 200, currentPage := parseIntJS pageNum,
    hasNextPage := some false, results := [],
    provider := ((PROVIDERS.head?).map (·.name)).getD "" }

/-- Provider loop shared in shape by the unified list handlers. -/
def unifiedListGo {α : Type} (env : String → FetchResult (Option (ListPayload α)))
    (pageNum : String) : List ProviderConfig → ListReply α
  | [] => listFallThroughReply pageNum
  | p :: rest =>
    match env p.name with
    | .success d =>
      match d with
      | some payload =>
        if isValidSearchResults (some payload) then listSuccessReply p.name payload
        else unifiedListGo env pageNum rest
      | none => unifiedListGo env pageNum rest
    | .failure _ => unifiedListGo env pageNum rest

/-- JavaScript page || the string one, resolving the pageNum of the list
handlers. -/
def pageOrOne (page : Option String) : String :=
  match page with
  | some p => if p = "" then "1" else p
  | none => "1"

/-- Unified /search handler (query required, pageNum = page or "1"). -/
def unifiedSearch {α : Type} (env : String → FetchResult (Option (ListPayload α)))
    (page : Option String) : ListReply α :=
  unifiedListGo env (pageOrOne page) PROVIDERS

/-- Unified /latest handler. -/
def unifiedLatest {α : Type} (env : String → FetchResult (Option (ListPayload α)))
    (page : Option String) : ListReply α :=
  unifiedListGo env (pageOrOne page) PROVIDERS

/-- Unified /advanced-search handler; params other than page only shape the
fetched URL and live in the environment. -/
def unifiedAdvancedSearch {α : Type}
    (env : String → FetchResult (Option (ListPayload α)))
    (page : Option String) : ListReply α :=
  unifiedListGo env (pageOrOne page) PROVIDERS

/-- Unified /genre/:slug handler; the slug lives in the environment. -/
def unifiedGenre {α : Type} (env : String → FetchResult (Option (ListPayload α)))
    (page : Option String) : ListReply α :=
  unifiedListGo env (pageOrOne page) PROVIDERS

/- ===== anti-block transport retry (utils/proxy.ts fetchWithRetry) ===== -/

/-- Error value thrown by a failed axios request; status is
err.response?.status when present. -/
structure JsError where
  message : String
  status : Option Nat
deriving Repr, DecidableEq

/-- Outcome of a single client.get attempt (the environment). -/
inductive AttemptOutcome where
  | ok (data : String)
  | err (e : JsError)
deriving Repr, DecidableEq

/-- Whether an attempt outcome is a failure. -/
def attemptErrs : AttemptOutcome → Bool
  | .ok _ => false
  | .err _ => true

/-- Decidable equality for Except values with decidable components. -/
instance {ε α : Type} [DecidableEq ε] [DecidableEq α] :
    DecidableEq (Except ε α) := fun a b =>
  match a, b with
  | .ok x, .ok y =>
    if h : x = y then isTrue (by rw [h]) else isFalse (by intro hc; cases hc; exact h rfl)
  | .error x, .error y =>
    if h : x = y then isTrue (by rw [h]) else isFalse (by intro hc; cases hc; exact h rfl)
  | .ok _, .error _ => isFalse (by intro hc; cases hc)
  | .error _, .ok _ => isFalse (by intro hc; cases hc)

/-- Trace of one fetchWithRetry call: the final result, the backoff waits
performed (in milliseconds, in order), and the attempt numbers issued. -/
structure RetryTrace where
  result : Except JsError String
  waits : List Nat
  attempts : List Nat
deriving Repr, DecidableEq

/-- JavaScript `options?.field || default` for numeric options: undefined
and 0 both fall back to the default. -/
def jsOrDefault (o : Option Nat) (d : Nat) : Nat :=
  match o with
  | none => d
  | some n => if n = 0 then d else n

/-- Body of the fetchWithRetry loop. remaining counts the attempts still
allowed (maxRetries - attempt + 1 at entry); after a failed attempt that is
not the last one the loop waits retryDelay * 2 ^ (attempt - 1). -/
def fetchWithRetryGo (f : Nat → AttemptOutcome) (retryDelay : Nat)
    (fallbackErr : JsError) :
    Nat → Nat → Option JsError → RetryTrace
  | 0, _, lastErr =>
    { result := .error (lastErr.getD fallbackErr), waits := [], attempts := [] }
  | n + 1, attempt, _ =>
    match f attempt with
    | .ok d => { result := .ok d, waits := [], attempts := [attempt] }
    | .err e =>
      let rest := fetchWithRetryGo f retryDelay fallbackErr n (attempt + 1) (some e)
      if n = 0 then
        { result := rest.result, waits := rest.waits,
          attempts := attempt :: rest.attempts }
      else
        { result := rest.result,
          waits := retryDelay * 2 ^ (attempt - 1) :: rest.waits,
          attempts := attempt :: rest.attempts }

/-- fetchWithRetry(url, options): attempts 1..maxRetries (default 3) of
client.get, exponential backoff from retryDelay (default 1000 ms), throwing
the last error after the final failed attempt. -/
def fetchWithRetry (url : String) (f : Nat → AttemptOutcome)
    (maxRetriesOpt retryDelayOpt : Option Nat) : RetryTrace :=
  let maxRetries := jsOrDefault maxRetriesOpt 3
  let retryDelay := jsOrDefault retryDelayOpt 1000
  fetchWithRetryGo f retryDelay
    { message := "Failed to fetch " ++ url ++ " after " ++ toString maxRetries ++ " attempts",
      status := none }
    maxRetries 1 none

/- ===== headless render service (BrowserService.scrapeDynamic) ===== -/

/-- Environment of one scrapeDynamic call: whether page.goto times out,
whether page.waitForSelector times out (when a selector is supplied), and
the page content that page.content() would read. -/
structure DynPageEnv where
  navTimesOut : Bool
  selectorTimesOut : Bool
  content : String
deriving Repr, DecidableEq

/-- Result of a scrape: the returned HTML, or a propagated error. -/
inductive ScrapeResult where
  | ok (html : String)
  | error (msg : String)
deriving Repr, DecidableEq

/-- scrapeDynamic(url, selector?, timeout): goto with networkidle2, then an
un-guarded waitForSelector when a selector is given, then the settle delay
and page.content(); the finally block closes the page on every path. The
Bool of the result records that the page was closed. -/
def scrapeDynamic (env : DynPageEnv) (selector : Option String) :
    ScrapeResult × Bool :=
  if env.navTimesOut then (.error "Navigation timeout", true)
  else
    match selector with
    | some _ =>
      if env.selectorTimesOut then (.error "Selector wait timeout", true)
      else (.ok env.content, true)
    | none => (.ok env.content, true)

/- ===== TTL caches (mangaupdates muCache, mgeko genreCache) ===== -/

/-- One cache entry: the stored value and its creation timestamp. -/
structure CacheEntry (α : Type) where
  data : α
  timestamp : Nat
deriving Repr, DecidableEq

/-- In-memory Map keyed by strings, as an insertion-ordered association
list. -/
def cacheGet {α : Type} (c : List (String × CacheEntry α)) (k : String) :
    Option (CacheEntry α) :=
  (c.find? (fun p => p.1 == k)).map (·.2)

/-- Map.set: update in place or append. -/
def cacheSet {α : Type} (c : List (String × CacheEntry α)) (k : String)
    (v : CacheEntry α) : List (String × CacheEntry α) :=
  match c with
  | [] => [(k, v)]
  | (k₀, v₀) :: rest =>
    if k₀ == k then (k, v) :: rest else (k₀, v₀) :: cacheSet rest k v

/-- CACHE_TTL of the mangaupdates module: one hour in milliseconds. -/
def MU_CACHE_TTL : Nat := 60 * 60 * 1000

/-- Reply of the mangaupdates /info/:id handler, body present on 200. -/
structure MuReply (β : Type) where
  status : Nat
  body : Option β
deriving Repr, DecidableEq

/-- The mangaupdates /info/:id handler. getSeriesById returns none on any
request error (it catches internally); formatSeriesInfo is the pure
formatting step. The Bool of the result records whether the producer
(getSeriesById) was invoked. -/
def muInfoHandler {σ β : Type} (getSeriesById : String → Option σ)
    (formatSeriesInfo : σ → β) (now : Nat)
    (cache : List (String × CacheEntry β)) (id : String) :
    MuReply β × List (String × CacheEntry β) × Bool :=
  let cacheKey := "mu-info:" ++ id
  let hit := match cacheGet cache cacheKey with
    | some e => if now - e.timestamp < MU_CACHE_TTL then some e.data else none
    | none => none
  match hit with
  | some d => ({ status := 200, body := some d }, cache, false)
  | none =>
    match getSeriesById id with
    | none => ({ status := 404, body := none }, cache, true)
    | some s =>
      let data := formatSeriesInfo s
      ({ status := 200, body := some data },
       cacheSet cache cacheKey { data := data, timestamp := now }, true)

/-- GENRE_CACHE_TTL of the mgeko module: fifteen minutes in milliseconds. -/
def GENRE_CACHE_TTL : Nat := 15 * 60 * 1000

/-- Reply of the mgeko /genre/:slug handler: a 200 payload (the cached
field is present, and true, only on a cache hit) or a 500 error body. -/
inductive GenreReply (γ : Type) where
  | ok (currentPage : Int) (hasNextPage : Bool) (totalResults : Nat)
      (genre : String) (results : List γ) (cached : Option Bool)
  | err (message : String)
deriving Repr, DecidableEq

/-- The mgeko /genre/:slug handler. produce models the search-page fetch
plus parse (none when the request throws); the Bool of the result records
whether it was invoked. -/
def genreHandler {γ : Type} (produce : Option (List γ)) (now : Nat)
    (cache : List (String × CacheEntry (List γ))) (slug : String)
    (pageNum : Int) :
    GenreReply γ × List (String × CacheEntry (List γ)) × Bool :=
  let cacheKey := slug ++ ":" ++ toString pageNum
  let hit := match cacheGet cache cacheKey with
    | some e => if now - e.timestamp < GENRE_CACHE_TTL then some e.data else none
    | none => none
  match hit with
  | some rs =>
    (.ok pageNum (decide (rs.length ≥ 20)) rs.length slug rs (some true),
     cache, false)
  | none =>
    match produce with
    | none =>
      (.err "Something went wrong. Please try again later.", cache, true)
    | some rs =>
      (.ok pageNum (decide (rs.length ≥ 20)) rs.length slug rs none,
       cacheSet cache cacheKey { data := rs, timestamp := now }, true)

/- ===== chapter collection (mgeko /info, mangadex /info) ===== -/

/-- Case-insensitive strip of a lowercase literal from the front. -/
def stripCI (lit : List Char) (s : List Char) : Option (List Char) :=
  match lit, s with
  | [], rest => some rest
  | _ :: _, [] => none
  | l :: lt, c :: ct => if c.toLower = l then stripCI lt ct else none

/-- Match of the chapter-number pattern at the start of the list: the
case-insensitive literal chapter, an optional hyphen-or-space separator,
one or more digits, and an optional dot-digits fraction. Returns the
integer and fraction digit lists of the capture. -/
def chapterNumAt (s : List Char) : Option (List Char × List Char) :=
  match stripCI ("chapter".toList) s with
  | none => none
  | some r =>
    let r₂ := match r with
      | c :: t =>
        if (c = '-' || c = ' ') &&
           (match t with | d :: _ => d.isDigit | [] => false) then t else r
      | [] => r
    let ds := r₂.takeWhile Char.isDigit
    if ds.isEmpty then none
    else
      match r₂.drop ds.length with
      | '.' :: t =>
        let fs := t.takeWhile Char.isDigit
        if fs.isEmpty then some (ds, []) else some (ds, fs)
      | _ => some (ds, [])

/-- Leftmost match of the chapter-number pattern anywhere in the list
(regex search without anchors). -/
def findChapterParts : List Char → Option (List Char × List Char)
  | [] => none
  | c :: rest =>
    match chapterNumAt (c :: rest) with
    | some p => some p
    | none => findChapterParts rest

/-- Exact decimal number mant / 10 ^ scale. parseFloat of a chapter
numeral is modelled by the canonical such pair (trailing fraction zeros
stripped); the numerals appearing as chapter numbers are small enough that
IEEE doubles order and compare them exactly as these decimals do. -/
structure DecNum where
  mant : Nat
  scale : Nat
deriving Repr, DecidableEq

/-- Value comparison of exact decimals by cross multiplication. -/
def decNumLe (a b : DecNum) : Prop :=
  a.mant * 10 ^ b.scale ≤ b.mant * 10 ^ a.scale

instance : DecidableRel decNumLe := fun a b =>
  inferInstanceAs (Decidable (_ ≤ _))

/-- parseFloat of the captured numeral ds.fs in canonical form. -/
def mkDecNum (ds fs : List Char) : DecNum :=
  let fsx := (fs.reverse.dropWhile (· = '0')).reverse
  { mant := digitsToNat (ds ++ fsx), scale := fsx.length }

/-- Decimal rendering of the parsed number as JavaScript prints it for
values of chapter-number size: no leading zeros, no trailing fraction
zeros, no dot for integers. -/
def canonNumeral (ds fs : List Char) : String :=
  let dsx := ds.dropWhile (· = '0')
  let dsy := if dsx.isEmpty then ['0'] else dsx
  let fsx := (fs.reverse.dropWhile (· = '0')).reverse
  if fsx.isEmpty then String.mk dsy
  else String.mk dsy ++ "." ++ String.mk fsx

/-- One li element of the mgeko all-chapters list, as cheerio reads it:
the reader link href (none when absent), the text of time.chapter-update,
and its datetime attribute. -/
structure MgekoRawEl where
  href : Option String
  relativeTime : String
  datetime : Option String
deriving Repr, DecidableEq

/-- Chapter object pushed by the mgeko /info handler. -/
structure MgekoChapter where
  id : String
  title : String
  chapterNumber : DecNum
  releaseDate : Option String
deriving Repr, DecidableEq

/-- Collection loop of the mgeko /info all-chapters branch: skip entries
without a reader href, extract the chapter id and number, drop number
zero and numbers already seen, and record the release date as
relativeTime or datetime or null. -/
def collectMgekoChapters : List MgekoRawEl → List DecNum → List MgekoChapter
  | [], _ => []
  | el :: rest, seen =>
    match el.href with
    | none => collectMgekoChapters rest seen
    | some href =>
      if href = "" || !strContains href "/reader/en/" then
        collectMgekoChapters rest seen
      else
        let chapterId := dropTrailingSlash (replaceFirstStr href "/reader/en/" "")
        match findChapterParts chapterId.toList with
        | none => collectMgekoChapters rest seen
        | some (ds, fs) =>
          let num := mkDecNum ds fs
          if num.mant = 0 ∨ num ∈ seen then collectMgekoChapters rest seen
          else
            { id := chapterId,
              title := "Chapter " ++ canonNumeral ds fs,
              chapterNumber := num,
              releaseDate :=
                if el.relativeTime ≠ "" then some el.relativeTime
                else match el.datetime with
                  | some d => if d = "" then none else some d
                  | none => none } :: collectMgekoChapters rest (num :: seen)

/-- Comparator of the mgeko chapter sort: the JavaScript comparator
(a, b) => b.chapterNumber - a.chapterNumber orders by number descending. -/
def mgekoGE (a b : MgekoChapter) : Prop :=
  decNumLe b.chapterNumber a.chapterNumber

instance : DecidableRel mgekoGE := fun a b =>
  inferInstanceAs (Decidable (decNumLe b.chapterNumber a.chapterNumber))

instance : IsTotal MgekoChapter mgekoGE :=
  ⟨fun a b => Nat.le_total _ _⟩

instance : IsTrans MgekoChapter mgekoGE := by
  refine ⟨fun a b c hab hbc => ?_⟩
  have h1 : c.chapterNumber.mant * 10 ^ a.chapterNumber.scale * 10 ^ b.chapterNumber.scale ≤
      a.chapterNumber.mant * 10 ^ c.chapterNumber.scale * 10 ^ b.chapterNumber.scale := by
    calc c.chapterNumber.mant * 10 ^ a.chapterNumber.scale * 10 ^ b.chapterNumber.scale
        = c.chapterNumber.mant * 10 ^ b.chapterNumber.scale * 10 ^ a.chapterNumber.scale := by
          ring
      _ ≤ b.chapterNumber.mant * 10 ^ c.chapterNumber.scale * 10 ^ a.chapterNumber.scale := by
          exact Nat.mul_le_mul_right _ hbc
      _ = b.chapterNumber.mant * 10 ^ a.chapterNumber.scale * 10 ^ c.chapterNumber.scale := by
          ring
      _ ≤ a.chapterNumber.mant * 10 ^ b.chapterNumber.scale * 10 ^ c.chapterNumber.scale := by
          exact Nat.mul_le_mul_right _ hab
      _ = a.chapterNumber.mant * 10 ^ c.chapterNumber.scale * 10 ^ b.chapterNumber.scale := by
          ring
  exact Nat.le_of_mul_le_mul_right h1 (pow_pos (by norm_num) _)

/-- The chapter list the mgeko /info handler sends: collected entries
sorted by chapter number descending. Array.prototype.sort with this
comparator produces some ordering consistent with it; after
deduplication the numbers are distinct, so the sorted list is unique and
any sorting algorithm is a faithful model. -/
def mgekoInfoChapters (els : List MgekoRawEl) : List MgekoChapter :=
  (collectMgekoChapters els []).insertionSort mgekoGE

/-- One chapter object of the mangadex chapter-feed response. -/
structure MDRawChapter where
  id : String
  chapter : Option String
  title : Option String
  publishAt : Option String
deriving Repr, DecidableEq

/-- Chapter object pushed by the mangadex /info handler. -/
structure MDChapter where
  id : String
  title : String
  releaseDate : String
deriving Repr, DecidableEq

/-- JavaScript string truthiness: undefined/null and the empty string are
falsy. -/
def jsStrTruthy : Option String → Option String
  | some s => if s = "" then none else some s
  | none => none

/-- JavaScript `s || d` for an optional string. -/
def jsStrOr (o : Option String) (d : String) : String :=
  match o with
  | some s => if s = "" then d else s
  | none => d

/-- Collection loop of the mangadex /info handler: skip chapters with a
falsy chapter value or one already seen, keep the first occurrence of each
value. nowIso models new Date().toISOString(). Returns the chapter list
and the final seen set. -/
def collectMangadexChapters (nowIso : String) :
    List MDRawChapter → List String → List MDChapter × List String
  | [], seen => ([], seen)
  | ch :: rest, seen =>
    match jsStrTruthy ch.chapter with
    | none => collectMangadexChapters nowIso rest seen
    | some num =>
      if num ∈ seen then collectMangadexChapters nowIso rest seen
      else
        let r := collectMangadexChapters nowIso rest (num :: seen)
        ({ id := ch.id,
           title := jsStrOr ch.title ("Chapter " ++ num),
           releaseDate := jsStrOr ch.publishAt nowIso } :: r.1, r.2)

/-- Spec-side companion of the mangadex collection loop: the feed entries
it keeps, in feed order, for comparison with the implemented loop. -/
def mdKeptRaws : List MDRawChapter → List String → List MDRawChapter
  | [], _ => []
  | ch :: rest, seen =>
    match jsStrTruthy ch.chapter with
    | none => mdKeptRaws rest seen
    | some num =>
      if num ∈ seen then mdKeptRaws rest seen
      else ch :: mdKeptRaws rest (num :: seen)

/-- The chapter object the mangadex loop builds from one kept feed
entry. -/
def mdBuild (nowIso : String) (ch : MDRawChapter) : MDChapter :=
  { id := ch.id,
    title := jsStrOr ch.title ("Chapter " ++ (jsStrTruthy ch.chapter).getD ""),
    releaseDate := jsStrOr ch.publishAt nowIso }

/- ===== stream relay playlist rewrite (src/routes/proxy.ts) ===== -/

/-- Whether an m3u8 playlist line is rewritten by the pass for the given
extension: the gm-anchored pattern matches a full line whose first
character is not a hash and that contains the extension from its second
character on. -/
def lineNamesEntry (ext : String) (line : String) : Bool :=
  match line.toList with
  | [] => false
  | c :: rest => c ≠ '#' && subOcc ext.toList rest

/-- url.substring(0, url.lastIndexOf(slash) + 1): the prefix of the fetch
URL up to and including its last slash, empty when there is none. -/
def dirOfUrl (url : String) : String :=
  String.mk ((url.toList.reverse.dropWhile (fun c => c ≠ '/')).reverse)

/-- Query-parameter tail attached when a truthy referer was supplied. -/
def refQueryPart (referer : Option String) : String :=
  match referer with
  | some r => if r = "" then "" else "&referer=" ++ encodeURIComponent r
  | none => ""

/-- Rewriting of one matched playlist line: resolve a relative entry
against the fetch URL directory, then point the line at the proxy stream
endpoint with the resolved URL encoded and the original referer attached
when one was supplied (and truthy). -/
def proxifyLine (url : String) (referer : Option String) (line : String) :
    String :=
  let absoluteUrl := if strStartsWith line "http" then line else dirOfUrl url ++ line
  "http://localhost:3000/proxy/stream?url=" ++ encodeURIComponent absoluteUrl ++
    refQueryPart referer

/-- One global replace pass over a line. -/
def rewriteLinePass (ext url : String) (referer : Option String)
    (line : String) : String :=
  if lineNamesEntry ext line then proxifyLine url referer line else line

/-- Split a character list at newline characters. -/
def splitNl (cs : List Char) : List (List Char) :=
  match cs with
  | [] => [[]]
  | c :: rest =>
    match splitNl rest with
    | [] => [[]]
    | l :: ls => if c = '\n' then [] :: l :: ls else (c :: l) :: ls

/-- The lines of a playlist body. -/
def playlistLines (content : String) : List String :=
  (splitNl content.toList).map String.mk

/-- Join lines back with newlines. -/
def joinNl : List String → String
  | [] => ""
  | [l] => l
  | l :: ls => l ++ "\n" ++ joinNl ls

/-- The m3u8 branch of the /stream handler: the m3u8-entry pass followed by
the ts-entry pass on its output. The gm anchors make each regex pass
line-local and the replacements contain no newline, so the two
content-level replaces equal per-line composition. -/
def rewriteStreamPlaylist (url : String) (referer : Option String)
    (content : String) : String :=
  joinNl ((playlistLines content).map fun line =>
    rewriteLinePass ".ts" url referer (rewriteLinePass ".m3u8" url referer line))

/- ===== predicates stated by the specification (for comparison) ===== -/

/-- Info validity exactly as the specification words it: title non-empty
and chapters non-empty. -/
def specInfoValid (title : String) (chapters : List ChapterRef) : Bool :=
  title ≠ "" && !chapters.isEmpty

/-- Read validity exactly as the specification words it: page list
non-empty and at least one page with a non-empty image URL. -/
def specReadValid (pages : List PageItem) : Bool :=
  !pages.isEmpty && pages.any (fun p => p.img.getD "" ≠ "")

/- ===== concrete environments used by the closed witness theorems ===== -/

/-- Environment in which the first provider returns a valid info payload. -/
def envInfoFirstOk : String → FetchResult (Option InfoData) := fun _ =>
  .success (some { title := some "Foo",
                   chapters := some [{ id := "ch-1", title := "Chapter 1", releaseDate := none }] })

/-- Environment in which the first provider fails with a status error and
the second returns a valid info payload. -/
def envInfoSecondOk : String → FetchResult (Option InfoData) := fun n =>
  if n = "manhuaplus" then .failure "Status 500"
  else .success (some { title := some "Foo",
                        chapters := some [{ id := "ch-1", title := "Chapter 1", releaseDate := none }] })

/-- Environment in which the first provider returns an invalid payload and
the second fails with a status error. -/
def envInfoExhausted : String → FetchResult (Option InfoData) := fun n =>
  if n = "manhuaplus" then .success (some { title := some "Foo", chapters := some [] })
  else .failure "Status 500"

/-- Environment in which every list fetch fails with a status error. -/
def envListFail : String → FetchResult (Option (ListPayload Nat)) := fun _ =>
  .failure "Status 500"

/- ===== theorems ===== -/

/-- C1. For the unified /info over the fixed PROVIDERS list: whenever a
provider's fetch passes the info validator, the loop stops there (no later
provider is fetched), the reply carries that provider's name, and the
fallback flag is true exactly when its priority exceeds the first
provider's priority: false when manhuaplus succeeds, true when manhuaplus
fails validation and manhuaus succeeds. -/
theorem unified_info_first_valid (env : String → FetchResult (Option InfoData)) :
    (fetchPassesInfo (env "manhuaplus") = true →
      (unifiedInfo env).1.status = 200 ∧
      (unifiedInfo env).1.provider = some "manhuaplus" ∧
      (unifiedInfo env).1.fallback = some false ∧
      (unifiedInfo env).2 = ["manhuaplus"]) ∧
    (fetchPassesInfo (env "manhuaplus") = false →
     fetchPassesInfo (env "manhuaus") = true →
      (unifiedInfo env).1.status = 200 ∧
      (unifiedInfo env).1.provider = some "manhuaus" ∧
      (unifiedInfo env).1.fallback = some true ∧
      (unifiedInfo env).2 = ["manhuaplus", "manhuaus"]) := by
  constructor
  · intro h
    cases hp : env "manhuaplus" with
    | success d =>
      have hv : isValidManhwaInfo d = true := by
        rw [hp] at h; simpa [fetchPassesInfo] using h
      simp [unifiedInfo, PROVIDERS, unifiedInfoGo, hp, hv]
    | failure e =>
      rw [hp] at h; simp [fetchPassesInfo] at h
  · intro h1 h2
    cases hq : env "manhuaus" with
    | success d2 =>
      have hv2 : isValidManhwaInfo d2 = true := by
        rw [hq] at h2; simpa [fetchPassesInfo] using h2
      cases hp : env "manhuaplus" with
      | success d =>
        have hv : isValidManhwaInfo d = false := by
          rw [hp] at h1; simpa [fetchPassesInfo] using h1
        simp [unifiedInfo, PROVIDERS, unifiedInfoGo, hp, hq, hv, hv2]
      | failure e =>
        simp [unifiedInfo, PROVIDERS, unifiedInfoGo, hp, hq, hv2]
    | failure e2 =>
      rw [hq] at h2; simp [fetchPassesInfo] at h2

/-- Closed instantiation of the previous theorem at concrete
environments. -/
theorem unified_info_first_valid_witness :
    ((unifiedInfo envInfoFirstOk).1.status = 200 ∧
     (unifiedInfo envInfoFirstOk).1.provider = some "manhuaplus" ∧
     (unifiedInfo envInfoFirstOk).1.fallback = some false ∧
     (unifiedInfo envInfoFirstOk).2 = ["manhuaplus"]) ∧
    ((unifiedInfo envInfoSecondOk).1.status = 200 ∧
     (unifiedInfo envInfoSecondOk).1.provider = some "manhuaus" ∧
     (unifiedInfo envInfoSecondOk).1.fallback = some true ∧
     (unifiedInfo envInfoSecondOk).2 = ["manhuaplus", "manhuaus"]) :=
  ⟨(unified_info_first_valid envInfoFirstOk).1 (by decide),
   (unified_info_first_valid envInfoSecondOk).2 (by decide) (by decide)⟩

/-- C2. If both providers fail (error or invalid payload), the unified
/info call returns the terminal 404 reply, carrying exactly one failure
reason per provider in priority order, plus the tried-provider list; it is
a returned value, not a thrown error. -/
theorem unified_info_exhausted (env : String → FetchResult (Option InfoData))
    (h1 : fetchPassesInfo (env "manhuaplus") = false)
    (h2 : fetchPassesInfo (env "manhuaus") = false) :
    (unifiedInfo env).1.status = 404 ∧
    (unifiedInfo env).1.errors =
      some [infoFailMsg "manhuaplus" (env "manhuaplus"),
            infoFailMsg "manhuaus" (env "manhuaus")] ∧
    (unifiedInfo env).1.triedProviders = some ["manhuaplus", "manhuaus"] := by
  cases hp : env "manhuaplus" with
  | success d =>
    have hv : isValidManhwaInfo d = false := by
      rw [hp] at h1; simpa [fetchPassesInfo] using h1
    cases hq : env "manhuaus" with
    | success d2 =>
      have hv2 : isValidManhwaInfo d2 = false := by
        rw [hq] at h2; simpa [fetchPassesInfo] using h2
      simp [unifiedInfo, PROVIDERS, unifiedInfoGo, infoFailMsg, hp, hq, hv, hv2]
    | failure e2 =>
      simp [unifiedInfo, PROVIDERS, unifiedInfoGo, infoFailMsg, hp, hq, hv]
  | failure e =>
    cases hq : env "manhuaus" with
    | success d2 =>
      have hv2 : isValidManhwaInfo d2 = false := by
        rw [hq] at h2; simpa [fetchPassesInfo] using h2
      simp [unifiedInfo, PROVIDERS, unifiedInfoGo, infoFailMsg, hp, hq, hv2]
    | failure e2 =>
      simp [unifiedInfo, PROVIDERS, unifiedInfoGo, infoFailMsg, hp, hq]

/-- Closed instantiation: invalid data on the first provider, status error
on the second. -/
theorem unified_info_exhausted_witness :
    (unifiedInfo envInfoExhausted).1.status = 404 ∧
    (unifiedInfo envInfoExhausted).1.errors =
      some ["manhuaplus: Invalid data (no chapters or title)",
            "manhuaus: Status 500"] ∧
    (unifiedInfo envInfoExhausted).1.triedProviders =
      some ["manhuaplus", "manhuaus"] := by
  have h := unified_info_exhausted envInfoExhausted (by decide) (by decide)
  simpa [envInfoExhausted, infoFailMsg] using h

/-- C3 counterexample. The claim words validity as plain non-emptiness,
but the code also trims: a whitespace-only title (or image URL) is
non-empty yet rejected by the implemented validators. -/
theorem validators_whitespace_counterexample :
    specInfoValid " " [{ id := "c1", title := "Chapter 1", releaseDate := none }] = true ∧
    isValidManhwaInfo
        (some { title := some " ",
                chapters := some [{ id := "c1", title := "Chapter 1", releaseDate := none }] })
      = false ∧
    specReadValid [{ page := 1, img := some " " }] = true ∧
    isValidChapterPages (some [{ page := 1, img := some " " }]) = false := by
  decide

/-- C3 amended. The validators are pure predicates with exactly these
definitions on well-formed payloads: info is valid iff the title is
non-empty after trimming whitespace and the chapters list is non-empty;
search/latest/genre results are valid iff the results list is non-empty;
read is valid iff the page list is non-empty and some page has an image
URL that is non-empty after trimming whitespace. -/
theorem validators_characterization :
    (∀ (t : String) (cs : List ChapterRef),
      isValidManhwaInfo (some { title := some t, chapters := some cs })
        = (jsTrim t != "" && !cs.isEmpty)) ∧
    (∀ (α : Type) (cp : Option Int) (hn : Option Bool) (rs : List α),
      isValidSearchResults
          (some { currentPage := cp, hasNextPage := hn, results := some rs })
        = !rs.isEmpty) ∧
    (∀ ps : List PageItem,
      isValidChapterPages (some ps)
        = (!ps.isEmpty && ps.any (fun p => jsTrim (p.img.getD "") != ""))) := by
  refine ⟨fun t cs => ?_, fun α cp hn rs => ?_, fun ps => ?_⟩
  · by_cases h0 : t = ""
    · subst h0
      have hj : jsTrim "" = "" := by decide
      simp [isValidManhwaInfo, hj]
    · by_cases h1 : jsTrim t = ""
      · simp [isValidManhwaInfo, h0, h1]
      · cases cs <;> simp [isValidManhwaInfo, h0, h1]
  · cases rs <;> simp [isValidSearchResults]
  · have hfun : (fun p : PageItem =>
        match p.img with
        | none => false
        | some s => s ≠ "" && jsTrim s ≠ "") =
        (fun p : PageItem => jsTrim (p.img.getD "") != "") := by
      funext p
      cases hp : p.img with
      | none =>
        have hj : jsTrim "" = "" := by decide
        simp [hj]
      | some s =>
        by_cases h0 : s = ""
        · subst h0
          have hj : jsTrim "" = "" := by decide
          simp [hj]
        · by_cases h1 : jsTrim s = "" <;> simp [h0, h1]
    cases ps with
    | nil => simp [isValidChapterPages]
    | cons p rest =>
      simp only [isValidChapterPages]
      rw [hfun]
      simp

/-- Shared fall-through computation of the unified list loops: with both
providers failing validation the loop reaches the literal fall-through
reply. -/
theorem unifiedListGo_exhausted {α : Type}
    (env : String → FetchResult (Option (ListPayload α))) (pageNum : String)
    (h1 : fetchPassesList (env "manhuaplus") = false)
    (h2 : fetchPassesList (env "manhuaus") = false) :
    unifiedListGo env pageNum PROVIDERS =
      { status := 200, currentPage := parseIntJS pageNum,
        hasNextPage := some false, results := [], provider := "manhuaplus" } := by
  cases hp : env "manhuaplus" with
  | success d =>
    cases d with
    | some payload =>
      have hv : isValidSearchResults (α := α) (some payload) = false := by
        rw [hp] at h1; simpa [fetchPassesList] using h1
      cases hq : env "manhuaus" with
      | success d2 =>
        cases d2 with
        | some payload2 =>
          have hv2 : isValidSearchResults (α := α) (some payload2) = false := by
            rw [hq] at h2; simpa [fetchPassesList] using h2
          simp [unifiedListGo, PROVIDERS, hp, hq, hv, hv2, listFallThroughReply]
        | none => simp [unifiedListGo, PROVIDERS, hp, hq, hv, listFallThroughReply]
      | failure e2 => simp [unifiedListGo, PROVIDERS, hp, hq, hv, listFallThroughReply]
    | none =>
      cases hq : env "manhuaus" with
      | success d2 =>
        cases d2 with
        | some payload2 =>
          have hv2 : isValidSearchResults (α := α) (some payload2) = false := by
            rw [hq] at h2; simpa [fetchPassesList] using h2
          simp [unifiedListGo, PROVIDERS, hp, hq, hv2, listFallThroughReply]
        | none => simp [unifiedListGo, PROVIDERS, hp, hq, listFallThroughReply]
      | failure e2 => simp [unifiedListGo, PROVIDERS, hp, hq, listFallThroughReply]
  | failure e =>
    cases hq : env "manhuaus" with
    | success d2 =>
      cases d2 with
      | some payload2 =>
        have hv2 : isValidSearchResults (α := α) (some payload2) = false := by
          rw [hq] at h2; simpa [fetchPassesList] using h2
        simp [unifiedListGo, PROVIDERS, hp, hq, hv2, listFallThroughReply]
      | none => simp [unifiedListGo, PROVIDERS, hp, hq, listFallThroughReply]
    | failure e2 => simp [unifiedListGo, PROVIDERS, hp, hq, listFallThroughReply]

/-- C10. For the unified search, latest, advanced-search and genre
operations, exhausting every provider does not yield a not-found error:
each handler replies with status 200, an empty results list, hasNextPage
false and the first provider's name, and its reply type carries no
per-provider failure reasons. -/
theorem unified_list_exhausted_ok {α : Type}
    (envS envL envA envG : String → FetchResult (Option (ListPayload α)))
    (pageS pageL pageA pageG : Option String)
    (hS1 : fetchPassesList (envS "manhuaplus") = false)
    (hS2 : fetchPassesList (envS "manhuaus") = false)
    (hL1 : fetchPassesList (envL "manhuaplus") = false)
    (hL2 : fetchPassesList (envL "manhuaus") = false)
    (hA1 : fetchPassesList (envA "manhuaplus") = false)
    (hA2 : fetchPassesList (envA "manhuaus") = false)
    (hG1 : fetchPassesList (envG "manhuaplus") = false)
    (hG2 : fetchPassesList (envG "manhuaus") = false) :
    unifiedSearch envS pageS =
      { status := 200, currentPage := parseIntJS (pageOrOne pageS),
        hasNextPage := some false, results := [], provider := "manhuaplus" } ∧
    unifiedLatest envL pageL =
      { status := 200, currentPage := parseIntJS (pageOrOne pageL),
        hasNextPage := some false, results := [], provider := "manhuaplus" } ∧
    unifiedAdvancedSearch envA pageA =
      { status := 200, currentPage := parseIntJS (pageOrOne pageA),
        hasNextPage := some false, results := [], provider := "manhuaplus" } ∧
    unifiedGenre envG pageG =
      { status := 200, currentPage := parseIntJS (pageOrOne pageG),
        hasNextPage := some false, results := [], provider := "manhuaplus" } :=
  ⟨unifiedListGo_exhausted envS (pageOrOne pageS) hS1 hS2,
   unifiedListGo_exhausted envL (pageOrOne pageL) hL1 hL2,
   unifiedListGo_exhausted envA (pageOrOne pageA) hA1 hA2,
   unifiedListGo_exhausted envG (pageOrOne pageG) hG1 hG2⟩

/-- Closed instantiation of the list fall-through at failing
environments. -/
theorem unified_list_exhausted_ok_witness :
    unifiedSearch envListFail none =
      { status := 200, currentPage := some 1, hasNextPage := some false,
        results := [], provider := "manhuaplus" } ∧
    unifiedLatest envListFail none =
      { status := 200, currentPage := some 1, hasNextPage := some false,
        results := [], provider := "manhuaplus" } ∧
    unifiedAdvancedSearch envListFail none =
      { status := 200, currentPage := some 1, hasNextPage := some false,
        results := [], provider := "manhuaplus" } ∧
    unifiedGenre envListFail none =
      { status := 200, currentPage := some 1, hasNextPage := some false,
        results := [], provider := "manhuaplus" } := by
  have h := unified_list_exhausted_ok envListFail envListFail envListFail envListFail
    none none none none (by decide) (by decide) (by decide) (by decide)
    (by decide) (by decide) (by decide) (by decide)
  have hp : parseIntJS (pageOrOne none) = some 1 := by decide
  rw [hp] at h
  exact h

/-- The retry loop issues at most remaining attempts. -/
theorem fetchWithRetryGo_attempts_le (f : Nat → AttemptOutcome) (d : Nat)
    (fe : JsError) :
    ∀ (n a : Nat) (le : Option JsError),
      (fetchWithRetryGo f d fe n a le).attempts.length ≤ n := by
  intro n
  induction n with
  | zero => intro a le; simp [fetchWithRetryGo]
  | succ m ih =>
    intro a le
    cases hfa : f a with
    | ok dd => simp [fetchWithRetryGo, hfa]
    | err e =>
      have hrest := ih (a + 1) (some e)
      simp only [fetchWithRetryGo, hfa]
      split <;> simp <;> omega

/-- When every attempt fails, the loop runs attempts a..a+n-1, waits
d * 2 ^ (attempt - 1) after each non-final attempt, and ends with the
last error. -/
theorem fetchWithRetryGo_allFail (es : Nat → JsError) (d : Nat) (fe : JsError) :
    ∀ (n a : Nat) (le : Option JsError), 1 ≤ n → 1 ≤ a →
      fetchWithRetryGo (fun k => .err (es k)) d fe n a le =
        { result := .error (es (a + n - 1)),
          waits := (List.range (n - 1)).map (fun i => d * 2 ^ (a - 1 + i)),
          attempts := List.range' a n } := by
  intro n
  induction n with
  | zero => intro a le h1 _; exact absurd h1 (by omega)
  | succ m ih =>
    intro a le _ ha
    cases m with
    | zero =>
      conv_lhs => rw [fetchWithRetryGo]
      dsimp only
      rw [if_pos rfl]
      conv_lhs => rw [fetchWithRetryGo]
      dsimp only
      simp [List.range'_one]
    | succ m2 =>
      conv_lhs => rw [fetchWithRetryGo]
      dsimp only
      rw [if_neg (by omega)]
      rw [ih (a + 1) (some (es a)) (by omega) (by omega)]
      simp only [RetryTrace.mk.injEq, Nat.add_sub_cancel]
      refine ⟨?_, ?_, ?_⟩
      · have hx : a + 1 + (m2 + 1) - 1 = a + (m2 + 1 + 1) - 1 := by omega
        rw [hx]
      · conv_rhs => rw [List.range_succ_eq_map, List.map_cons, List.map_map]
        refine congr_arg₂ List.cons (by simp) (List.map_congr_left fun i _ => ?_)
        simp only [Function.comp_apply]
        have hx : a - 1 + (i + 1) = a + i := by omega
        rw [hx]
      · conv_rhs => rw [List.range'_succ]

/-- C4. The transport retry makes at most maxRetries attempts (default
three); when every attempt fails it waits exactly base * 2 ^ (k - 1)
milliseconds between failed attempt k and attempt k + 1, throws the last
error after the final attempt without waiting further, and with the
defaults the waits are one second then two seconds over three attempts. -/
theorem fetchWithRetry_backoff :
    (∀ (url : String) (f : Nat → AttemptOutcome) (mo ro : Option Nat),
      (fetchWithRetry url f mo ro).attempts.length ≤ jsOrDefault mo 3) ∧
    (∀ (url : String) (es : Nat → JsError) (m d : Nat), 1 ≤ m → 1 ≤ d →
      fetchWithRetry url (fun k => .err (es k)) (some m) (some d) =
        { result := .error (es m),
          waits := (List.range (m - 1)).map (fun i => d * 2 ^ i),
          attempts := List.range' 1 m }) ∧
    (∀ (url : String) (es : Nat → JsError),
      fetchWithRetry url (fun k => .err (es k)) none none =
        { result := .error (es 3), waits := [1000, 2000],
          attempts := [1, 2, 3] }) := by
  refine ⟨fun url f mo ro => ?_, fun url es m d hm hd => ?_, fun url es => ?_⟩
  · exact fetchWithRetryGo_attempts_le f (jsOrDefault ro 1000) _ (jsOrDefault mo 3) 1 none
  · have hm0 : jsOrDefault (some m) 3 = m := by
      simp [jsOrDefault, show ¬ (m = 0) from by omega]
    have hd0 : jsOrDefault (some d) 1000 = d := by
      simp [jsOrDefault, show ¬ (d = 0) from by omega]
    unfold fetchWithRetry
    rw [hm0, hd0, fetchWithRetryGo_allFail es d _ m 1 none hm (by omega)]
    simp
  · unfold fetchWithRetry
    simp only [jsOrDefault]
    rw [fetchWithRetryGo_allFail es 1000 _ 3 1 none (by omega) (by omega)]
    simp only [RetryTrace.mk.injEq]
    exact ⟨by norm_num, by decide, by decide⟩

/-- Closed instantiation of the backoff schedule at three failing
attempts with base delay 1000. -/
theorem fetchWithRetry_backoff_witness :
    fetchWithRetry "https://example.com/a"
        (fun k => .err { message := toString k, status := none })
        (some 3) (some 1000) =
      { result := .error { message := toString 3, status := none },
        waits := [1000, 2000], attempts := [1, 2, 3] } := by
  have h := fetchWithRetry_backoff.2.1 "https://example.com/a"
    (fun k => { message := toString k, status := none }) 3 1000
    (by omega) (by omega)
  exact h.trans (by decide)

/-- C5 counterexample. An attempt failing with HTTP status 404 (a
non-transient 4xx) is still retried: the trace shows attempt 2 issued
after a 1000 ms wait, where the claim demands that no further attempt be
made. -/
theorem fetchWithRetry_404_retried_counterexample :
    (fetchWithRetry "https://example.com/x"
        (fun k => if k = 1 then
            .err { message := "Request failed with status code 404", status := some 404 }
          else .ok "ok") none none).attempts = [1, 2] ∧
    (fetchWithRetry "https://example.com/x"
        (fun k => if k = 1 then
            .err { message := "Request failed with status code 404", status := some 404 }
          else .ok "ok") none none).waits = [1000] ∧
    (fetchWithRetry "https://example.com/x"
        (fun k => if k = 1 then
            .err { message := "Request failed with status code 404", status := some 404 }
          else .ok "ok") none none).result = .ok "ok" := by
  decide

/-- Attempt a + i is issued whenever all earlier attempts of the window
fail, whatever their errors look like. -/
theorem fetchWithRetryGo_attempt_made (f : Nat → AttemptOutcome) (d : Nat)
    (fe : JsError) :
    ∀ (n a : Nat) (le : Option JsError) (i : Nat), i < n →
      (∀ j, a ≤ j → j < a + i → attemptErrs (f j) = true) →
      (a + i) ∈ (fetchWithRetryGo f d fe n a le).attempts := by
  intro n
  induction n with
  | zero => intro a le i hi _; exact absurd hi (by omega)
  | succ m ih =>
    intro a le i hi hfail
    cases i with
    | zero =>
      cases hfa : f a with
      | ok dd => simp [fetchWithRetryGo, hfa]
      | err e =>
        simp only [fetchWithRetryGo, hfa]
        split <;> simp
    | succ i2 =>
      have hfa : attemptErrs (f a) = true := hfail a (le_refl a) (by omega)
      cases hfe : f a with
      | ok dd => rw [hfe] at hfa; simp [attemptErrs] at hfa
      | err e =>
        have hmem := ih (a + 1) (some e) i2 (by omega)
          (fun j hj1 hj2 => hfail j (by omega) (by omega))
        have hsh : a + (i2 + 1) = (a + 1) + i2 := by omega
        rw [hsh]
        simp only [fetchWithRetryGo, hfe]
        split <;> simp <;> exact Or.inr hmem

/-- C5 amended. The retry loop does not inspect the failure at all: any
failed attempt k < maxRetries is followed by attempt k + 1, including
failures with a non-transient 4xx status such as 404. -/
theorem fetchWithRetry_retries_regardless (url : String)
    (f : Nat → AttemptOutcome) (mo ro : Option Nat) (k : Nat)
    (hk1 : 1 ≤ k) (hk2 : k < jsOrDefault mo 3)
    (hfail : ∀ j, 1 ≤ j → j ≤ k → attemptErrs (f j) = true) :
    (k + 1) ∈ (fetchWithRetry url f mo ro).attempts := by
  have h := fetchWithRetryGo_attempt_made f (jsOrDefault ro 1000)
    { message := "Failed to fetch " ++ url ++ " after " ++
        toString (jsOrDefault mo 3) ++ " attempts", status := none }
    (jsOrDefault mo 3) 1 none k hk2
    (fun j hj1 hj2 => hfail j hj1 (by omega))
  have hsh : 1 + k = k + 1 := by omega
  rw [hsh] at h
  exact h

/-- Closed instantiation: the 404 failure of the counterexample is
followed by attempt 2. -/
theorem fetchWithRetry_retries_regardless_witness :
    2 ∈ (fetchWithRetry "https://example.com/x"
        (fun k => if k = 1 then
            .err { message := "Request failed with status code 404", status := some 404 }
          else .ok "ok") none none).attempts :=
  fetchWithRetry_retries_regardless "https://example.com/x"
    (fun k => if k = 1 then
        .err { message := "Request failed with status code 404", status := some 404 }
      else .ok "ok") none none 1 (by omega) (by decide)
    (fun j hj1 hj2 => by
      have hj : j = 1 := by omega
      subst hj
      decide)

/-- C6 counterexample. With navigation succeeding and the selector wait
timing out, scrapeDynamic propagates an error instead of returning the
page content present at that point. -/
theorem scrapeDynamic_selector_timeout_counterexample :
    scrapeDynamic
        { navTimesOut := false, selectorTimesOut := true,
          content := "<html>partial</html>" } (some ".chapter-list") =
      (.error "Selector wait timeout", true) ∧
    (scrapeDynamic
        { navTimesOut := false, selectorTimesOut := true,
          content := "<html>partial</html>" } (some ".chapter-list")).1 ≠
      .ok "<html>partial</html>" := by
  decide

/-- C6 amended. A timeout while waiting for the caller-supplied selector
is fatal: the error propagates to the caller exactly like a navigation
timeout; the page is closed on every exit path. -/
theorem scrapeDynamic_selector_timeout_fatal (env : DynPageEnv) (sel : String) :
    (scrapeDynamic env (some sel)).2 = true ∧
    (scrapeDynamic env none).2 = true ∧
    (env.navTimesOut = false → env.selectorTimesOut = true →
      (scrapeDynamic env (some sel)).1 = .error "Selector wait timeout") ∧
    (env.navTimesOut = true →
      (scrapeDynamic env (some sel)).1 = .error "Navigation timeout") ∧
    (env.navTimesOut = false → env.selectorTimesOut = false →
      (scrapeDynamic env (some sel)).1 = .ok env.content) := by
  refine ⟨?_, ?_, ?_, ?_, ?_⟩
  · cases hn : env.navTimesOut <;> cases hs : env.selectorTimesOut <;>
      simp [scrapeDynamic, hn, hs]
  · cases hn : env.navTimesOut <;> simp [scrapeDynamic, hn]
  · intro hn hs; simp [scrapeDynamic, hn, hs]
  · intro hn; simp [scrapeDynamic, hn]
  · intro hn hs; simp [scrapeDynamic, hn, hs]

/-- Closed instantiation of the fatal selector timeout and of the other
exit paths. -/
theorem scrapeDynamic_selector_timeout_fatal_witness :
    (scrapeDynamic
        { navTimesOut := false, selectorTimesOut := true,
          content := "<html>partial</html>" } (some ".x")).2 = true ∧
    (scrapeDynamic
        { navTimesOut := false, selectorTimesOut := true,
          content := "<html>partial</html>" } (some ".x")).1 =
      .error "Selector wait timeout" ∧
    (scrapeDynamic
        { navTimesOut := true, selectorTimesOut := false,
          content := "" } (some ".x")).1 = .error "Navigation timeout" ∧
    (scrapeDynamic
        { navTimesOut := false, selectorTimesOut := false,
          content := "<html>full</html>" } (some ".x")).1 =
      .ok "<html>full</html>" :=
  ⟨(scrapeDynamic_selector_timeout_fatal
      { navTimesOut := false, selectorTimesOut := true,
        content := "<html>partial</html>" } ".x").1,
   (scrapeDynamic_selector_timeout_fatal
      { navTimesOut := false, selectorTimesOut := true,
        content := "<html>partial</html>" } ".x").2.2.1 rfl rfl,
   (scrapeDynamic_selector_timeout_fatal
      { navTimesOut := true, selectorTimesOut := false, content := "" }
      ".x").2.2.2.1 rfl,
   (scrapeDynamic_selector_timeout_fatal
      { navTimesOut := false, selectorTimesOut := false,
        content := "<html>full</html>" } ".x").2.2.2.2 rfl rfl⟩

/-- Reading back the key just written into the association-list Map. -/
theorem cacheGet_cacheSet_self {α : Type} (c : List (String × CacheEntry α))
    (k : String) (v : CacheEntry α) :
    cacheGet (cacheSet c k v) k = some v := by
  induction c with
  | nil => simp [cacheGet, cacheSet, List.find?]
  | cons p rest ih =>
    obtain ⟨k0, v0⟩ := p
    by_cases h : (k0 == k) = true
    · simp [cacheGet, cacheSet, h, List.find?]
    · simp only [cacheSet, h, if_false, Bool.false_eq_true]
      simp only [cacheGet, List.find?, h] at ih ⊢
      exact ih

/-- C7. The TTL caches obey the producer contract: an unexpired entry is
returned as stored without invoking the producer and without touching the
cache; a failed producer never creates or overwrites an entry; and after
a successful miss, a second identical call within the TTL window returns
exactly the stored payload without invoking any producer. Stated for the
mangaupdates info cache and the mgeko genre cache. -/
theorem ttl_cache_contract :
    (∀ (σ β : Type) (get : String → Option σ) (fmt : σ → β) (now : Nat)
       (cache : List (String × CacheEntry β)) (id : String) (e : CacheEntry β),
       cacheGet cache ("mu-info:" ++ id) = some e →
       now - e.timestamp < MU_CACHE_TTL →
       muInfoHandler get fmt now cache id =
         ({ status := 200, body := some e.data }, cache, false)) ∧
    (∀ (σ β : Type) (get : String → Option σ) (fmt : σ → β) (now : Nat)
       (cache : List (String × CacheEntry β)) (id : String),
       get id = none →
       (muInfoHandler get fmt now cache id).2.1 = cache) ∧
    (∀ (σ β : Type) (get get₂ : String → Option σ) (fmt fmt₂ : σ → β)
       (now now₂ : Nat) (cache : List (String × CacheEntry β)) (id : String)
       (s : σ),
       cacheGet cache ("mu-info:" ++ id) = none →
       get id = some s →
       now₂ - now < MU_CACHE_TTL →
       muInfoHandler get₂ fmt₂ now₂ (muInfoHandler get fmt now cache id).2.1 id =
         ({ status := 200, body := some (fmt s) },
          (muInfoHandler get fmt now cache id).2.1, false)) ∧
    (∀ (γ : Type) (produce : Option (List γ)) (now : Nat)
       (cache : List (String × CacheEntry (List γ))) (slug : String)
       (pageNum : Int) (e : CacheEntry (List γ)),
       cacheGet cache (slug ++ ":" ++ toString pageNum) = some e →
       now - e.timestamp < GENRE_CACHE_TTL →
       genreHandler produce now cache slug pageNum =
         (.ok pageNum (decide (e.data.length ≥ 20)) e.data.length slug e.data
            (some true), cache, false)) ∧
    (∀ (γ : Type) (now : Nat) (cache : List (String × CacheEntry (List γ)))
       (slug : String) (pageNum : Int),
       (genreHandler (γ := γ) none now cache slug pageNum).2.1 = cache) ∧
    (∀ (γ : Type) (produce₂ : Option (List γ)) (now now₂ : Nat)
       (cache : List (String × CacheEntry (List γ))) (slug : String)
       (pageNum : Int) (rs : List γ),
       cacheGet cache (slug ++ ":" ++ toString pageNum) = none →
       now₂ - now < GENRE_CACHE_TTL →
       genreHandler produce₂ now₂
           (genreHandler (some rs) now cache slug pageNum).2.1 slug pageNum =
         (.ok pageNum (decide (rs.length ≥ 20)) rs.length slug rs (some true),
          (genreHandler (some rs) now cache slug pageNum).2.1, false)) := by
  refine ⟨?_, ?_, ?_, ?_, ?_, ?_⟩
  · intro σ β get fmt now cache id e hget hlt
    simp [muInfoHandler, hget, hlt]
  · intro σ β get fmt now cache id hprod
    rcases hget : cacheGet cache ("mu-info:" ++ id) with _ | e
    · simp [muInfoHandler, hget, hprod]
    · by_cases hlt : now - e.timestamp < MU_CACHE_TTL
      · simp [muInfoHandler, hget, hlt]
      · simp [muInfoHandler, hget, hlt, hprod]
  · intro σ β get get₂ fmt fmt₂ now now₂ cache id s hget hs hlt
    have hfirst : muInfoHandler get fmt now cache id =
        ({ status := 200, body := some (fmt s) },
         cacheSet cache ("mu-info:" ++ id) { data := fmt s, timestamp := now },
         true) := by
      simp [muInfoHandler, hget, hs]
    rw [hfirst]
    simp [muInfoHandler, cacheGet_cacheSet_self, hlt]
  · intro γ produce now cache slug pageNum e hget hlt
    simp [genreHandler, hget, hlt]
  · intro γ now cache slug pageNum
    rcases hget : cacheGet cache (slug ++ ":" ++ toString pageNum) with _ | e
    · simp [genreHandler, hget]
    · by_cases hlt : now - e.timestamp < GENRE_CACHE_TTL
      · simp [genreHandler, hget, hlt]
      · simp [genreHandler, hget, hlt]
  · intro γ produce₂ now now₂ cache slug pageNum rs hget hlt
    have hfirst : genreHandler (some rs) now cache slug pageNum =
        (.ok pageNum (decide (rs.length ≥ 20)) rs.length slug rs none,
         cacheSet cache (slug ++ ":" ++ toString pageNum)
           { data := rs, timestamp := now }, true) := by
      simp [genreHandler, hget]
    rw [hfirst]
    simp [genreHandler, cacheGet_cacheSet_self, hlt]

/-- Closed instantiation of the six cache-contract clauses at concrete
caches, producers and clocks. -/
theorem ttl_cache_contract_witness :
    muInfoHandler (σ := Nat) (fun _ => none) id 150
        [("mu-info:x", { data := 7, timestamp := 100 })] "x" =
      ({ status := 200, body := some 7 },
       [("mu-info:x", { data := 7, timestamp := 100 })], false) ∧
    (muInfoHandler (σ := Nat) (β := Nat) (fun _ => none) id 0 [] "y").2.1 = [] ∧
    muInfoHandler (σ := Nat) (fun _ => none) id 200
        (muInfoHandler (fun _ => some 5) (fun n => n + 1) 100 [] "z").2.1 "z" =
      ({ status := 200, body := some 6 },
       (muInfoHandler (fun _ => some 5) (fun n => n + 1) 100 [] "z").2.1,
       false) ∧
    genreHandler (γ := Nat) (some [9]) 150
        [("action:1", { data := [1, 2], timestamp := 100 })] "action" 1 =
      (.ok 1 false 2 "action" [1, 2] (some true),
       [("action:1", { data := [1, 2], timestamp := 100 })], false) ∧
    (genreHandler (γ := Nat) none 0 [] "drama" 1).2.1 = [] ∧
    genreHandler (γ := Nat) none 200
        (genreHandler (some [1, 2]) 100 [] "action" 1).2.1 "action" 1 =
      (.ok 1 false 2 "action" [1, 2] (some true),
       (genreHandler (some [1, 2]) 100 [] "action" 1).2.1, false) := by
  refine ⟨?_, ?_, ?_, ?_, ?_, ?_⟩
  · exact ttl_cache_contract.1 Nat Nat (fun _ => none) id 150
      [("mu-info:x", { data := 7, timestamp := 100 })] "x"
      { data := 7, timestamp := 100 } (by decide) (by decide)
  · exact ttl_cache_contract.2.1 Nat Nat (fun _ => none) id 0 [] "y" rfl
  · exact ttl_cache_contract.2.2.1 Nat Nat (fun _ => some 5) (fun _ => none)
      (fun n => n + 1) id 100 200 [] "z" 5 (by decide) rfl (by decide)
  · exact ttl_cache_contract.2.2.2.1 Nat (some [9]) 150
      [("action:1", { data := [1, 2], timestamp := 100 })] "action" 1
      { data := [1, 2], timestamp := 100 } (by decide) (by decide)
  · exact ttl_cache_contract.2.2.2.2.1 Nat 0 [] "drama" 1
  · exact ttl_cache_contract.2.2.2.2.2 Nat none 100 200 [] "action" 1 [1, 2]
      (by decide) (by decide)

/-- Every chapter the mgeko collection keeps has a number outside the
incoming seen set, and the kept numbers are pairwise distinct. -/
theorem collectMgeko_nums_fresh :
    ∀ (els : List MgekoRawEl) (seen : List DecNum),
      (∀ c ∈ collectMgekoChapters els seen, c.chapterNumber ∉ seen) ∧
      ((collectMgekoChapters els seen).map (·.chapterNumber)).Nodup := by
  intro els
  induction els with
  | nil => intro seen; simp [collectMgekoChapters]
  | cons el rest ih =>
    intro seen
    cases hh : el.href with
    | none => simpa [collectMgekoChapters, hh] using ih seen
    | some href =>
      simp only [collectMgekoChapters, hh]
      split
      · exact ih seen
      · split
        · exact ih seen
        · rename_i hskip pr ds fs hfp
          split
          · exact ih seen
          · rename_i hkeep
            have hfresh : mkDecNum ds fs ∉ seen := by
              intro hmem
              exact hkeep (Or.inr hmem)
            constructor
            · intro c hc
              rcases List.mem_cons.mp hc with hceq | hcm
              · intro hmem
                rw [hceq] at hmem
                exact hfresh hmem
              · intro hmem
                exact (ih (mkDecNum ds fs :: seen)).1 c hcm
                  (List.mem_cons_of_mem _ hmem)
            · simp only [List.map_cons]
              refine List.nodup_cons.mpr ⟨?_, (ih _).2⟩
              intro hmem
              obtain ⟨c, hcm, hceq⟩ := List.mem_map.mp hmem
              exact (ih (mkDecNum ds fs :: seen)).1 c hcm
                (hceq ▸ List.mem_cons_self _ _)

/-- Structural facts of the mangadex collection loop, generalized over the
seen set: one pushed chapter per newly seen value, the seen set stays
duplicate-free, and it ends up holding exactly the incoming values plus
the truthy chapter values of the feed. -/
theorem collectMangadex_props (nowIso : String) :
    ∀ (raws : List MDRawChapter) (seen : List String),
      ((collectMangadexChapters nowIso raws seen).1.length + seen.length =
        (collectMangadexChapters nowIso raws seen).2.length) ∧
      (seen.Nodup → (collectMangadexChapters nowIso raws seen).2.Nodup) ∧
      (∀ v, v ∈ (collectMangadexChapters nowIso raws seen).2 ↔
        v ∈ seen ∨ ∃ r ∈ raws, jsStrTruthy r.chapter = some v) := by
  intro raws
  induction raws with
  | nil => intro seen; simp [collectMangadexChapters]
  | cons ch rest ih =>
    intro seen
    cases hc : jsStrTruthy ch.chapter with
    | none =>
      simp only [collectMangadexChapters, hc]
      refine ⟨(ih seen).1, (ih seen).2.1, fun v => ?_⟩
      rw [(ih seen).2.2 v]
      constructor
      · rintro (h | ⟨r, hr, hrv⟩)
        · exact Or.inl h
        · exact Or.inr ⟨r, List.mem_cons_of_mem _ hr, hrv⟩
      · rintro (h | ⟨r, hr, hrv⟩)
        · exact Or.inl h
        · rcases List.mem_cons.mp hr with hre | hrm
          · rw [hre, hc] at hrv; cases hrv
          · exact Or.inr ⟨r, hrm, hrv⟩
    | some num =>
      by_cases hmem : num ∈ seen
      · simp only [collectMangadexChapters, hc, if_pos hmem]
        refine ⟨(ih seen).1, (ih seen).2.1, fun v => ?_⟩
        rw [(ih seen).2.2 v]
        constructor
        · rintro (h | ⟨r, hr, hrv⟩)
          · exact Or.inl h
          · exact Or.inr ⟨r, List.mem_cons_of_mem _ hr, hrv⟩
        · rintro (h | ⟨r, hr, hrv⟩)
          · exact Or.inl h
          · rcases List.mem_cons.mp hr with hre | hrm
            · rw [hre, hc] at hrv
              cases hrv
              exact Or.inl hmem
            · exact Or.inr ⟨r, hrm, hrv⟩
      · simp only [collectMangadexChapters, hc, if_neg hmem]
        have ihn := ih (num :: seen)
        refine ⟨?_, ?_, fun v => ?_⟩
        · simp only [List.length_cons]
          have := ihn.1
          simp only [List.length_cons] at this
          omega
        · intro hnd
          exact ihn.2.1 (List.nodup_cons.mpr ⟨hmem, hnd⟩)
        · rw [ihn.2.2 v]
          constructor
          · rintro (h | ⟨r, hr, hrv⟩)
            · rcases List.mem_cons.mp h with hv | hv
              · exact Or.inr ⟨ch, List.mem_cons_self _ _, by rw [hc, hv]⟩
              · exact Or.inl hv
            · exact Or.inr ⟨r, List.mem_cons_of_mem _ hr, hrv⟩
          · rintro (h | ⟨r, hr, hrv⟩)
            · exact Or.inl (List.mem_cons_of_mem _ h)
            · rcases List.mem_cons.mp hr with hre | hrm
              · rw [hre, hc] at hrv
                cases hrv
                exact Or.inl (List.mem_cons_self _ _)
              · exact Or.inr ⟨r, hrm, hrv⟩

/-- The mangadex loop builds exactly the kept feed entries, in feed
order. -/
theorem collectMangadex_eq_keptRaws (nowIso : String) :
    ∀ (raws : List MDRawChapter) (seen : List String),
      (collectMangadexChapters nowIso raws seen).1 =
        (mdKeptRaws raws seen).map (mdBuild nowIso) := by
  intro raws
  induction raws with
  | nil => intro seen; simp [collectMangadexChapters, mdKeptRaws]
  | cons ch rest ih =>
    intro seen
    cases hc : jsStrTruthy ch.chapter with
    | none => simp [collectMangadexChapters, mdKeptRaws, hc, ih seen]
    | some num =>
      by_cases hmem : num ∈ seen
      · simp [collectMangadexChapters, mdKeptRaws, hc, hmem, ih seen]
      · simp only [collectMangadexChapters, mdKeptRaws, hc, if_neg hmem,
          List.map_cons]
        refine congr_arg₂ List.cons ?_ (ih (num :: seen))
        simp [mdBuild, hc]

/-- The kept feed entries form a subsequence of the feed: the loop never
reorders. -/
theorem mdKeptRaws_sublist :
    ∀ (raws : List MDRawChapter) (seen : List String),
      List.Sublist (mdKeptRaws raws seen) raws := by
  intro raws
  induction raws with
  | nil => intro seen; simp [mdKeptRaws]
  | cons ch rest ih =>
    intro seen
    cases hc : jsStrTruthy ch.chapter with
    | none =>
      simp only [mdKeptRaws, hc]
      exact (ih seen).cons ch
    | some num =>
      by_cases hmem : num ∈ seen
      · simp only [mdKeptRaws, hc, if_pos hmem]
        exact (ih seen).cons ch
      · simp only [mdKeptRaws, hc, if_neg hmem]
        exact (ih (num :: seen)).cons₂ ch

/-- Every kept feed entry has a truthy chapter value outside the incoming
seen set, and the kept values are pairwise distinct: only the first
occurrence of each chapter value survives. -/
theorem mdKeptRaws_fresh :
    ∀ (raws : List MDRawChapter) (seen : List String),
      (∀ r ∈ mdKeptRaws raws seen,
        ∃ v, jsStrTruthy r.chapter = some v ∧ v ∉ seen) ∧
      ((mdKeptRaws raws seen).map (fun r => jsStrTruthy r.chapter)).Nodup := by
  intro raws
  induction raws with
  | nil => intro seen; simp [mdKeptRaws]
  | cons ch rest ih =>
    intro seen
    cases hc : jsStrTruthy ch.chapter with
    | none => simpa [mdKeptRaws, hc] using ih seen
    | some num =>
      by_cases hmem : num ∈ seen
      · simpa [mdKeptRaws, hc, hmem] using ih seen
      · simp only [mdKeptRaws, hc, if_neg hmem]
        constructor
        · intro r hr
          rcases List.mem_cons.mp hr with hre | hrm
          · exact ⟨num, by rw [hre]; exact hc, hmem⟩
          · obtain ⟨v, hv, hvn⟩ := (ih (num :: seen)).1 r hrm
            exact ⟨v, hv, fun hvs => hvn (List.mem_cons_of_mem _ hvs)⟩
        · simp only [List.map_cons]
          refine List.nodup_cons.mpr ⟨?_, (ih _).2⟩
          intro hmm
          obtain ⟨r, hrm, hreq⟩ := List.mem_map.mp hmm
          obtain ⟨v, hv, hvn⟩ := (ih (num :: seen)).1 r hrm
          rw [hv, hc] at hreq
          have hveq : v = num := Option.some.inj hreq
          rw [hveq] at hvn
          exact hvn (List.mem_cons_self _ _)

/-- C8 counterexample. Two chapter entries sharing the number 10 (two scan
versions of the same chapter) are not kept as distinct entries: both the
mgeko and the mangadex collection drop the second, keeping one entry. -/
theorem chapters_duplicate_dropped_counterexample :
    (mgekoInfoChapters
        [{ href := some "/reader/en/solo-chapter-10-team-a/",
           relativeTime := "2 days", datetime := none },
         { href := some "/reader/en/solo-chapter-10-team-b/",
           relativeTime := "1 day", datetime := none }]).map (·.id) =
      ["solo-chapter-10-team-a"] ∧
    (mgekoInfoChapters
        [{ href := some "/reader/en/solo-chapter-10-team-a/",
           relativeTime := "2 days", datetime := none },
         { href := some "/reader/en/solo-chapter-10-team-b/",
           relativeTime := "1 day", datetime := none }]).length ≠ 2 ∧
    (collectMangadexChapters "2026-01-01T00:00:00Z"
        [{ id := "aaa", chapter := some "10", title := none, publishAt := none },
         { id := "bbb", chapter := some "10", title := none, publishAt := none }]
        []).1.map (·.id) = ["aaa"] := by
  decide

/-- C8 amended. The chapter list of the mgeko info operation is sorted by
chapter number descending with pairwise-distinct numbers (duplicate
numbers are dropped, the first occurrence kept). The mangadex info
operation performs no local sort: its chapter list is exactly the kept
feed entries built in feed order — a subsequence of the feed, which the
code merely requests already descending through the API parameter
order[chapter]=desc — keeping only the first occurrence of each distinct
truthy chapter value, and its seen set ends up holding exactly the feed's
truthy chapter values. -/
theorem chapters_dedupe_and_order :
    (∀ els : List MgekoRawEl, (mgekoInfoChapters els).Pairwise mgekoGE) ∧
    (∀ els : List MgekoRawEl,
      ((mgekoInfoChapters els).map (·.chapterNumber)).Nodup) ∧
    (∀ (nowIso : String) (raws : List MDRawChapter),
      (collectMangadexChapters nowIso raws []).1 =
        (mdKeptRaws raws []).map (mdBuild nowIso) ∧
      List.Sublist (mdKeptRaws raws []) raws ∧
      ((mdKeptRaws raws []).map (fun r => jsStrTruthy r.chapter)).Nodup ∧
      (∀ v, v ∈ (collectMangadexChapters nowIso raws []).2 ↔
        ∃ r ∈ raws, jsStrTruthy r.chapter = some v)) := by
  refine ⟨fun els => ?_, fun els => ?_, fun nowIso raws => ?_⟩
  · exact List.sorted_insertionSort mgekoGE (collectMgekoChapters els [])
  · have hperm := List.perm_insertionSort mgekoGE (collectMgekoChapters els [])
    have hmap := (hperm.map (·.chapterNumber)).symm
    exact hmap.nodup (collectMgeko_nums_fresh els []).2
  · refine ⟨collectMangadex_eq_keptRaws nowIso raws [],
      mdKeptRaws_sublist raws [], (mdKeptRaws_fresh raws []).2, fun v => ?_⟩
    rw [(collectMangadex_props nowIso raws []).2.2 v]
    simp

/-- C9. Playlist rewriting of the /stream handler: a non-comment line
naming a ts entry (and not an m3u8 entry), or an m3u8 entry, that does not
start with http is resolved against the fetch URL directory (its prefix up
to and including the last slash) and rewritten to the proxy stream
endpoint with the resolved URL percent-encoded and the referer, when
supplied, attached as a query parameter; on the concrete spec example the
line segment001.ts fetched from the show directory rewrites to the proxied
absolute segment URL. -/
theorem stream_playlist_rewrite :
    (∀ (url : String) (referer : Option String) (line : String),
      lineNamesEntry ".ts" line = true →
      lineNamesEntry ".m3u8" line = false →
      strStartsWith line "http" = false →
      rewriteLinePass ".ts" url referer (rewriteLinePass ".m3u8" url referer line) =
        "http://localhost:3000/proxy/stream?url=" ++
          encodeURIComponent (dirOfUrl url ++ line) ++ refQueryPart referer) ∧
    (∀ (url : String) (referer : Option String) (line : String),
      lineNamesEntry ".m3u8" line = true →
      strStartsWith line "http" = false →
      lineNamesEntry ".ts" (proxifyLine url referer line) = false →
      rewriteLinePass ".ts" url referer (rewriteLinePass ".m3u8" url referer line) =
        "http://localhost:3000/proxy/stream?url=" ++
          encodeURIComponent (dirOfUrl url ++ line) ++ refQueryPart referer) ∧
    (rewriteStreamPlaylist "https://cdn.example/show/index.m3u8?token=1"
        (some "https://hianime.to/") "#EXTM3U\nsegment001.ts" =
      "#EXTM3U\nhttp://localhost:3000/proxy/stream?url=https%3A%2F%2Fcdn.example%2Fshow%2Fsegment001.ts&referer=https%3A%2F%2Fhianime.to%2F") := by
  refine ⟨fun url referer line hts hm3u8 hhttp => ?_,
          fun url referer line hm3u8 hhttp hts => ?_, by decide⟩
  · simp [rewriteLinePass, hts, hm3u8, proxifyLine, hhttp]
  · have h1 : rewriteLinePass ".m3u8" url referer line =
        proxifyLine url referer line := by
      simp [rewriteLinePass, hm3u8]
    rw [h1]
    have h2 : rewriteLinePass ".ts" url referer (proxifyLine url referer line) =
        proxifyLine url referer line := by
      simp [rewriteLinePass, hts]
    rw [h2]
    simp [proxifyLine, hhttp]

/-- Closed instantiation at the spec example (a relative ts segment) and
at a relative variant playlist entry. -/
theorem stream_playlist_rewrite_witness :
    rewriteLinePass ".ts" "https://cdn.example/show/index.m3u8?token=1"
        (some "https://hianime.to/")
        (rewriteLinePass ".m3u8" "https://cdn.example/show/index.m3u8?token=1"
          (some "https://hianime.to/") "segment001.ts") =
      "http://localhost:3000/proxy/stream?url=" ++
        encodeURIComponent
          (dirOfUrl "https://cdn.example/show/index.m3u8?token=1" ++
            "segment001.ts") ++
        refQueryPart (some "https://hianime.to/") ∧
    rewriteLinePass ".ts" "https://cdn.example/show/index.m3u8?token=1"
        (some "https://hianime.to/")
        (rewriteLinePass ".m3u8" "https://cdn.example/show/index.m3u8?token=1"
          (some "https://hianime.to/") "low/index.m3u8") =
      "http://localhost:3000/proxy/stream?url=" ++
        encodeURIComponent
          (dirOfUrl "https://cdn.example/show/index.m3u8?token=1" ++
            "low/index.m3u8") ++
        refQueryPart (some "https://hianime.to/") :=
  ⟨stream_playlist_rewrite.1 "https://cdn.example/show/index.m3u8?token=1"
      (some "https://hianime.to/") "segment001.ts"
      (by decide) (by decide) (by decide),
   stream_playlist_rewrite.2.1 "https://cdn.example/show/index.m3u8?token=1"
      (some "https://hianime.to/") "low/index.m3u8"
      (by decide) (by decide) (by decide)⟩
